import Mathlib

/-!
Shallow embedding of `src/FRTMTools/Sources/Analyzers/APKAnalyzer/Helpers/parse_apk_manifest.py`,
the Android binary-XML (AXML) manifest parser: the chunk scanner that recovers
the string pool from a byte buffer, and the metadata classifier that extracts
package name, version name, version code, application label and permissions
from the recovered strings.

Byte buffers are `List Nat` (one entry per byte); Python strings are Lean
`String` (a list of characters); Python `None`-able variables are `Option`;
a raised Python exception is `Except.error` carrying `str(e)`.  Character
classification (`isdigit`, `isalpha`, `isupper`, `upper()`, ...) is modelled
on the ASCII range, which is the range every heuristic constant of the source
lives in.
-/

/-! ## Python string primitives -/

/-- `s.startswith(p)`. -/
def pyStartsWith (s p : String) : Bool := p.data.isPrefixOf s.data

/-- `s.endswith(p)`. -/
def pyEndsWith (s p : String) : Bool := p.data.isSuffixOf s.data

/-- Substring test over character lists: `needle in hay` for Python strings. -/
def pyContainsSub (needle : List Char) : List Char → Bool
  | [] => needle.isEmpty
  | c :: t => needle.isPrefixOf (c :: t) || pyContainsSub needle t

/-- `sub in s` for Python strings. -/
def pyContainsStr (s sub : String) : Bool := pyContainsSub sub.data s.data

/-- `s[0].isupper()` (the source only evaluates it on non-empty strings). -/
def firstIsUpper (s : String) : Bool :=
  match s.data with
  | [] => false
  | c :: _ => c.isUpper

/-- `s[0].isdigit()` (the source only evaluates it on non-empty strings). -/
def firstIsDigit (s : String) : Bool :=
  match s.data with
  | [] => false
  | c :: _ => c.isDigit

/-- `s.upper()`. -/
def pyUpper (s : String) : String := ⟨s.data.map Char.toUpper⟩

/-- `s.isdigit()` over the ASCII digits: non-empty and every character an
ASCII digit.  Used for the version-name transform test of line 172, whose
outcome never feeds `int()`. -/
def pyIsDigits (l : List Char) : Bool := !l.isEmpty && l.all Char.isDigit

/-- `s.isalpha()`: non-empty and every character alphabetic. -/
def pyIsAlphaStr (s : String) : Bool := !s.data.isEmpty && s.data.all Char.isAlpha

/-- The value of `int(s)` on an all-decimal-digit string. -/
def digitsVal (s : String) : Nat := s.data.foldl (fun n c => 10 * n + (c.toNat - 48)) 0

/-- Python's per-character digit property, the test behind `str.isdigit`.
Finite model of the Unicode tables: the ASCII decimal digits, plus the
digit-property characters of the Latin-1, superscript and subscript blocks
(`¹ ² ³`, U+2070, U+2074-2079, U+2080-2089) — characters `str.isdigit`
accepts but `int()` rejects with `ValueError`. -/
def pyCharIsDigit (c : Char) : Bool :=
  c.isDigit || c = '¹' || c = '²' || c = '³' ||
    decide (c.toNat = 0x2070) ||
    (decide (0x2074 ≤ c.toNat) && decide (c.toNat ≤ 0x2079)) ||
    (decide (0x2080 ≤ c.toNat) && decide (c.toNat ≤ 0x2089))

/-- `s.isdigit()` with the full digit property: non-empty and every
character a digit-property character.  This is the test of line 177, whose
hits are fed to `int()`. -/
def pyStrIsDigit (l : List Char) : Bool := !l.isEmpty && l.all pyCharIsDigit

/-- The strings `int()` accepts among those this program feeds it: non-empty
and all ASCII decimal digits.  (The digit-property characters above that
are not decimal make `int()` raise; non-ASCII decimal digits are outside
the modelled repertoire.) -/
def pyIntAccepts (l : List Char) : Bool := !l.isEmpty && l.all Char.isDigit

/-- `int(s)`: the converted value, or the raised `ValueError` rendered as
`str(e)`.  The quoting matches `repr` for the quote-free digit strings that
reach this call. -/
def pyInt (s : String) : Except String Nat :=
  if pyIntAccepts s.data then .ok (digitsVal s)
  else .error ("invalid literal for int() with base 10: '" ++ s ++ "'")

/-- `s.replace(p, '')` for a one-character pattern: removes every
occurrence of the character, scanning left to right. -/
def pyRemoveChar (p : Char) : List Char → List Char
  | [] => []
  | c :: rest => if c = p then pyRemoveChar p rest else c :: pyRemoveChar p rest

/-- `s.replace(pq, '')` for a two-character pattern: removes every
non-overlapping occurrence, scanning left to right and resuming after each
removed occurrence (Python's `str.replace` never rescans the join). -/
def pyRemovePair (p q : Char) : List Char → List Char
  | [] => []
  | [c] => [c]
  | c :: d :: rest =>
    if c = p ∧ d = q then pyRemovePair p q rest
    else c :: pyRemovePair p q (d :: rest)

/-- `s.split(sep)` for a single-character separator, on character lists;
Python keeps empty fields, and `''.split(sep) == ['']`. -/
def pySplitChar (sep : Char) : List Char → List (List Char)
  | [] => [[]]
  | c :: rest =>
    if c = sep then [] :: pySplitChar sep rest
    else
      match pySplitChar sep rest with
      | [] => [[c]]
      | p :: ps => (c :: p) :: ps

/-- `s.split(sep)` for a single-character separator. -/
def pySplit (s : String) (sep : Char) : List String :=
  (pySplitChar sep s.data).map (fun l => ⟨l⟩)

/-- `s.capitalize()`: first character upper-cased, the rest lower-cased. -/
def pyCapitalize (s : String) : String :=
  match s.data with
  | [] => ⟨[]⟩
  | c :: rest => ⟨c.toUpper :: rest.map Char.toLower⟩

/-- Truthiness of a `None`-able Python string: `not x` is true for `None`
and for the empty string. -/
def pyFalsy (o : Option String) : Bool :=
  match o with
  | none => true
  | some s => s == ""

/-! ## Metadata classifier (source lines 66-197)

The classifier is one straight-line block in the source; each contiguous
piece of it is embedded as one named definition, and `classify` assembles
them in the source's order.  The indices `uses_permission_idx` and
`android_name_idx` computed at lines 74-81 are never read afterwards (dead
code) and are not embedded. -/

/-- The permission test of lines 86-93: starts with `android.permission.`,
or contains `.permission.` and ends with none of `Activity`, `Service`,
`Receiver`, `Provider`. -/
def isPermissionString (s : String) : Bool :=
  pyStartsWith s "android.permission." ||
    (pyContainsStr s ".permission." && !pyEndsWith s "Activity" && !pyEndsWith s "Service" &&
      !pyEndsWith s "Receiver" && !pyEndsWith s "Provider")

/-- One iteration of the permission loop at lines 85-96: append when the
string is a permission not already collected. -/
def permStep (acc : List String) (s : String) : List String :=
  if isPermissionString s && !acc.contains s then acc ++ [s] else acc

/-- The permission list built by lines 85-96. -/
def collectPermissions (strings : List String) : List String :=
  strings.foldl permStep []

/-- `excluded_labels` of lines 104-108. -/
def excludedLabels : List String :=
  ["name", "label", "application", "activity", "service", "receiver", "provider",
   "RELEASE", "DEBUG", "MAIN", "VERSION", "SDK", "MIN", "MAX", "TARGET",
   "true", "false", "null", "value", "config", "default", "string", "layout",
   "drawable", "color", "dimen", "style", "array", "integer", "bool", "id",
   "attr", "anim", "menu", "raw", "xml", "font", "navigation", "transition"]

/-- `s.upper() in [e.upper() for e in excluded_labels]`. -/
def labelExcluded (s : String) : Bool :=
  (excludedLabels.map pyUpper).contains (pyUpper s)

/-- The candidate test of the proximity pass, lines 122-130: the outer
condition of line 122 conjoined with the `s[0].isupper()` test of line 130
(when either fails the loop just continues, so the two are one predicate). -/
def isLabelCandidate1 (s : String) : Bool :=
  decide (2 ≤ s.length) && decide (s.length ≤ 50) &&
    !s.data.contains '/' &&
    !pyStartsWith s "android" && !pyStartsWith s "com." && !pyStartsWith s "@" &&
    !pyEndsWith s ".xml" &&
    !s.data.any Char.isDigit &&
    !labelExcluded s &&
    firstIsUpper s

/-- The candidate test of the global pass, lines 137-145. -/
def isLabelCandidate2 (s : String) : Bool :=
  decide (3 ≤ s.length) && decide (s.length ≤ 50) &&
    !s.data.contains '/' && !s.data.contains '.' &&
    !pyStartsWith s "android" && !pyStartsWith s "com." && !pyStartsWith s "@" &&
    !pyEndsWith s ".xml" &&
    !labelExcluded s &&
    firstIsUpper s && s.data.contains ' '

/-- The candidate test of the fallback pass, lines 152-155. -/
def isLabelCandidate3 (s : String) : Bool :=
  decide (3 ≤ s.length) && decide (s.length ≤ 30) &&
    firstIsUpper s && pyIsAlphaStr s && !labelExcluded s

/-- The proximity pass, lines 111-132: the first string equal to
`application` (lines 112-115 break at the first hit), then the first
candidate among the next up-to-20 strings.  The source's
`range(1, min(21, len(strings) - app_index))` visits exactly the positions
`app_index + 1 .. app_index + min(20, len - app_index - 1)`, which is the
window `(strings.drop (i + 1)).take 20`. -/
def labelPass1 (strings : List String) : Option String :=
  match strings.findIdx? (· == "application") with
  | none => none
  | some i => ((strings.drop (i + 1)).take 20).find? isLabelCandidate1

/-- The global pass, lines 135-147. -/
def labelPass2 (strings : List String) : Option String :=
  strings.find? isLabelCandidate2

/-- The fallback pass, lines 150-157. -/
def labelPass3 (strings : List String) : Option String :=
  strings.find? isLabelCandidate3

/-- The three label passes chained by the `if not app_label` guards of
lines 135 and 150. -/
def labelChain (strings : List String) : Option String :=
  let l1 := labelPass1 strings
  let l2 := if pyFalsy l1 then labelPass2 strings else l1
  if pyFalsy l2 then labelPass3 strings else l2

/-- The package-name test of lines 162-167. -/
def isPackageString (s : String) : Bool :=
  s.data.contains '.' && decide (5 < s.length) && decide (s.length < 200) &&
    decide (2 ≤ s.data.count '.') &&
    s.data.any Char.isAlpha &&
    s.data.all (fun c => c.isAlphanum || c = '.' || c = '_') &&
    !firstIsDigit s &&
    !pyStartsWith s "android.permission."

/-- The version-name test of lines 171-172: shorter than 50, contains a dot,
first character a digit, and the string with `.`, `-`, `_` removed, cut to
its first five characters, with `b`, `a`, `rc` removed, is all digits. -/
def isVersionNameString (s : String) : Bool :=
  decide (s.length < 50) && s.data.contains '.' && firstIsDigit s &&
    pyIsDigits
      (pyRemovePair 'r' 'c'
        (pyRemoveChar 'a'
          (pyRemoveChar 'b'
            ((pyRemoveChar '_' (pyRemoveChar '-' (pyRemoveChar '.' s.data))).take 5))))

/-- One iteration of the combined package/version-name loop at lines
159-173: each field is set by the first matching string, guarded by the
falsiness of what is already stored. -/
def pkgVersionStep (st : Option String × Option String) (s : String) :
    Option String × Option String :=
  (if pyFalsy st.1 && isPackageString s then some s else st.1,
   if pyFalsy st.2 && isVersionNameString s then some s else st.2)

/-- `package_name` after the loop of lines 159-173. -/
def packageOf (strings : List String) : Option String :=
  (strings.foldl pkgVersionStep (none, none)).1

/-- `version_name` after the loop of lines 159-173. -/
def versionNameOf (strings : List String) : Option String :=
  (strings.foldl pkgVersionStep (none, none)).2

/-- The version-code test of line 177: `s.isdigit()` (digit property) and
length 5 to 10. -/
def isVersionCodeString (s : String) : Bool :=
  pyStrIsDigit s.data && decide (5 ≤ s.length) && decide (s.length ≤ 10)

/-- One iteration of the version-code loop at lines 176-179:
`if not version_code or int(s) > int(version_code): version_code = s`.
The falsiness test short-circuits, so a first candidate is stored without
conversion; otherwise `int(s)` and then `int(version_code)` are evaluated
and either may raise `ValueError` (a digit-property string need not be
decimal), which aborts the whole parse. -/
def vcStep (vc : Option String) (s : String) : Except String (Option String) :=
  if isVersionCodeString s then
    if pyFalsy vc then .ok (some s)
    else
      match pyInt s with
      | .error e => .error e
      | .ok ns =>
        match pyInt (vc.getD "") with
        | .error e => .error e
        | .ok nv => if nv < ns then .ok (some s) else .ok vc
  else .ok vc

/-- The loop of lines 176-179: fold the step over the pool, propagating a
raised `ValueError`. -/
def versionCodeScan (vc : Option String) : List String → Except String (Option String)
  | [] => .ok vc
  | s :: rest =>
    match vcStep vc s with
    | .error e => .error e
    | .ok vc2 => versionCodeScan vc2 rest

/-- The `version_code` slot of the returned dictionary of lines 191-197.
When the loop raises, `parseBody` propagates the exception before any
dictionary is formed, so the `.error` arm here is unreachable from
`parseBinaryXml`. -/
def versionCodeOf (strings : List String) : Option String :=
  match versionCodeScan none strings with
  | .ok vc => vc
  | .error _ => none

/-- `app_label` after the synthesis fallback of lines 181-189: when the
three passes produced nothing and a package name was found, the last
dot-separated segment of the package, capitalized. -/
def appLabelOf (strings : List String) : Option String :=
  let l := labelChain strings
  let pkg := packageOf strings
  if pyFalsy l && !pyFalsy pkg then
    let parts := pySplit (pkg.getD "") '.'
    if 0 < parts.length then some (pyCapitalize (parts.getLastD "")) else l
  else l

/-- The output record of lines 191-197. -/
structure ManifestMetadata where
  package : Option String
  versionName : Option String
  versionCode : Option String
  appLabel : Option String
  permissions : List String
  deriving DecidableEq, Repr

/-- The classification block, lines 66-197, as a function of the recovered
string pool. -/
def classify (strings : List String) : ManifestMetadata :=
  { package := packageOf strings
    versionName := versionNameOf strings
    versionCode := versionCodeOf strings
    appLabel := appLabelOf strings
    permissions := collectPermissions strings }

/-! ## Chunk scanner (source lines 23-64) -/

/-- What `parse_binary_xml` returns: a metadata dictionary or an
`{'error': message}` dictionary. -/
inductive ParseResult where
  | meta : ManifestMetadata → ParseResult
  | error : String → ParseResult
  deriving DecidableEq, Repr

/-- `struct.unpack('<I', data[pos:pos+4])[0]`: a 4-byte little-endian read;
a slice shorter than four bytes makes `struct.unpack` raise. -/
def readU32 (data : List Nat) (pos : Nat) : Except String Nat :=
  if pos + 4 ≤ data.length then
    .ok (data.getD pos 0 + 256 * data.getD (pos + 1) 0 + 65536 * data.getD (pos + 2) 0 +
      16777216 * data.getD (pos + 3) 0)
  else .error "unpack requires a buffer of 4 bytes"

/-- `struct.unpack('<H', data[pos:pos+2])[0]`: a 2-byte little-endian read. -/
def readU16 (data : List Nat) (pos : Nat) : Except String Nat :=
  if pos + 2 ≤ data.length then
    .ok (data.getD pos 0 + 256 * data.getD (pos + 1) 0)
  else .error "unpack requires a buffer of 2 bytes"

/-- Pair bytes into 16-bit little-endian code units; a trailing odd byte is
dropped, as `errors='ignore'` drops it. -/
def utf16Units : List Nat → List Nat
  | b0 :: b1 :: rest => (b0 + 256 * b1) :: utf16Units rest
  | _ => []

/-- Decode UTF-16 code units as `errors='ignore'` does: surrogate pairs
combine, lone surrogates are dropped. -/
def utf16Chars : List Nat → List Char
  | [] => []
  | [u] => if 0xD800 ≤ u ∧ u ≤ 0xDFFF then [] else [Char.ofNat u]
  | u :: v :: rest =>
    if 0xD800 ≤ u ∧ u ≤ 0xDBFF then
      if 0xDC00 ≤ v ∧ v ≤ 0xDFFF then
        Char.ofNat (0x10000 + (u - 0xD800) * 1024 + (v - 0xDC00)) :: utf16Chars rest
      else utf16Chars (v :: rest)
    else if 0xDC00 ≤ u ∧ u ≤ 0xDFFF then utf16Chars (v :: rest)
    else Char.ofNat u :: utf16Chars (v :: rest)

/-- `data.decode('utf-16-le', errors='ignore')`. -/
def decodeUtf16le (bytes : List Nat) : String := ⟨utf16Chars (utf16Units bytes)⟩

/-- The string-reading loop of lines 51-61: for each table offset, when the
position is inside the buffer read the 2-byte length prefix, and when
`0 < str_len < 1000` decode the next `str_len * 2` bytes (a Python slice
past the end just truncates).  The `decode` under the inner `try` never
raises with `errors='ignore'`. -/
def readStrings (data : List Nat) (dataStart : Nat) : List Nat → Except String (List String)
  | [] => .ok []
  | strOff :: rest =>
    if dataStart + strOff < data.length - 2 then
      match readU16 data (dataStart + strOff) with
      | .error e => .error e
      | .ok strLen =>
        if 0 < strLen ∧ strLen < 1000 then
          match readStrings data dataStart rest with
          | .error e => .error e
          | .ok tail =>
            .ok (decodeUtf16le ((data.drop (dataStart + strOff + 2)).take (strLen * 2)) :: tail)
        else readStrings data dataStart rest
    else readStrings data dataStart rest

/-- The offset-table loop of lines 44-47: `string_count` 4-byte reads at
`offset + 28 + i*4`, with `i` counting up while the remaining count runs
down from `string_count`; a read past the buffer raises. -/
def readOffsets (data : List Nat) (chunkOffset : Nat) : Nat → Nat → Except String (List Nat)
  | _, 0 => .ok []
  | i, Nat.succ rem =>
    match readU32 data (chunkOffset + 28 + i * 4) with
    | .error e => .error e
    | .ok v =>
      match readOffsets data chunkOffset (i + 1) rem with
      | .error e => .error e
      | .ok rest => .ok (v :: rest)

/-- The string-pool branch of lines 39-62: read `string_count` at
`offset + 8`, the offset table at `offset + 28`, then the strings relative
to `data_start = offset + 28 + string_count * 4`. -/
def parseStringPool (data : List Nat) (chunkOffset : Nat) : Except String (List String) :=
  match readU32 data (chunkOffset + 8) with
  | .error e => .error e
  | .ok stringCount =>
    match readOffsets data chunkOffset 0 stringCount with
    | .error e => .error e
    | .ok offsets => readStrings data (chunkOffset + 28 + stringCount * 4) offsets

/-- The chunk loop of lines 35-64: while `offset < len(data) - 8`, read the
chunk type and size; stop at the first string-pool chunk (`0x001C0001`),
else advance by `chunk_size` when positive, by one byte otherwise. -/
def scanLoop (data : List Nat) (offset : Nat) : Except String (List String) :=
  if _h : offset < data.length - 8 then
    match readU32 data offset with
    | .error e => .error e
    | .ok chunkType =>
      match readU32 data (offset + 4) with
      | .error e => .error e
      | .ok chunkSize =>
        if chunkType = 0x001C0001 then parseStringPool data offset
        else scanLoop data (offset + (if 0 < chunkSize then chunkSize else 1))
  else .ok []
  termination_by data.length - offset
  decreasing_by split <;> omega

/-- The body of `parse_binary_xml` under its `try`, lines 24-197: the
size guard, the two header reads (read but unused), the chunk scan, the
classification.  `Except.error` is a raised exception.  The only
classification step that can raise is the version-code loop of lines
176-179 (its `int()` calls): `parseBody` runs it and propagates its
exception; every other field computation is total, so on the non-raising
path the returned dictionary is exactly `classify strings`. -/
def parseBody (data : List Nat) : Except String ParseResult :=
  if data.length < 8 then .ok (.error "File too small")
  else
    match readU32 data 0 with
    | .error e => .error e
    | .ok _magic =>
      match readU32 data 4 with
      | .error e => .error e
      | .ok _fileSize =>
        match scanLoop data 8 with
        | .error e => .error e
        | .ok strings =>
          match versionCodeScan none strings with
          | .error e => .error e
          | .ok _vc => .ok (.meta (classify strings))

/-- `parse_binary_xml`, lines 18-199: the `except Exception` handler turns
any exception raised by the body into `{'error': str(e)}`. -/
def parseBinaryXml (data : List Nat) : ParseResult :=
  match parseBody data with
  | .ok d => d
  | .error e => .error e

/-- Step-indexed version of the chunk loop, used to state that the loop of
lines 35-64 needs at most one iteration per byte of the buffer: `none`
means the fuel ran out before the loop finished. -/
def scanLoopFuel (fuel : Nat) (data : List Nat) (offset : Nat) :
    Option (Except String (List String)) :=
  match fuel with
  | 0 => none
  | Nat.succ f =>
    if offset < data.length - 8 then
      match readU32 data offset with
      | .error e => some (.error e)
      | .ok chunkType =>
        match readU32 data (offset + 4) with
        | .error e => some (.error e)
        | .ok chunkSize =>
          if chunkType = 0x001C0001 then some (parseStringPool data offset)
          else scanLoopFuel f data (offset + (if 0 < chunkSize then chunkSize else 1))
    else some (.ok [])

/-! ## Scanner lemmas -/

/-- The one-step unfolding of the chunk loop. -/
theorem scanLoop_eq (data : List Nat) (offset : Nat) : scanLoop data offset =
    if offset < data.length - 8 then
      match readU32 data offset with
      | .error e => .error e
      | .ok chunkType =>
        match readU32 data (offset + 4) with
        | .error e => .error e
        | .ok chunkSize =>
          if chunkType = 0x001C0001 then parseStringPool data offset
          else scanLoop data (offset + (if 0 < chunkSize then chunkSize else 1))
    else .ok [] := by
  rw [scanLoop]
  by_cases h : offset < data.length - 8
  · rw [dif_pos h, if_pos h]
  · rw [dif_neg h, if_neg h]

/-- A 4-byte read fails only with the Python `struct.error` message. -/
theorem readU32_error_eq (data : List Nat) (pos : Nat) (e : String)
    (h : readU32 data pos = .error e) : e = "unpack requires a buffer of 4 bytes" := by
  unfold readU32 at h
  split at h
  · exact absurd h (by simp)
  · injection h with h2
    exact h2.symm

/-- The string-reading loop never raises: every 2-byte length read is behind
the `str_pos < len(data) - 2` bound. -/
theorem readStrings_isOk (data : List Nat) (dataStart : Nat) (offs : List Nat) :
    ∃ l, readStrings data dataStart offs = .ok l := by
  induction offs with
  | nil => exact ⟨[], rfl⟩
  | cons strOff rest ih =>
    obtain ⟨l, hl⟩ := ih
    unfold readStrings
    by_cases hb : dataStart + strOff < data.length - 2
    · have hr : readU16 data (dataStart + strOff) =
          .ok (data.getD (dataStart + strOff) 0 + 256 * data.getD (dataStart + strOff + 1) 0) := by
        unfold readU16
        rw [if_pos (by omega)]
      simp only [if_pos hb, hr, hl]
      by_cases hlen : 0 < data.getD (dataStart + strOff) 0 + 256 * data.getD (dataStart + strOff + 1) 0 ∧
          data.getD (dataStart + strOff) 0 + 256 * data.getD (dataStart + strOff + 1) 0 < 1000
      · rw [if_pos hlen]
        exact ⟨_, rfl⟩
      · rw [if_neg hlen]
        exact ⟨l, rfl⟩
    · rw [if_neg hb]
      exact ⟨l, hl⟩

/-- The offset-table loop fails only with the 4-byte `struct.error` message. -/
theorem readOffsets_error_eq (data : List Nat) (chunkOffset : Nat) :
    ∀ rem i e, readOffsets data chunkOffset i rem = .error e →
      e = "unpack requires a buffer of 4 bytes" := by
  intro rem
  induction rem with
  | zero =>
    intro i e h
    exact absurd h (by simp [readOffsets])
  | succ rem ih =>
    intro i e h
    unfold readOffsets at h
    cases h32 : readU32 data (chunkOffset + 28 + i * 4) with
    | error e2 =>
      simp only [h32] at h
      cases h
      exact readU32_error_eq _ _ _ h32
    | ok v =>
      simp only [h32] at h
      cases hrest : readOffsets data chunkOffset (i + 1) rem with
      | error e2 =>
        simp only [hrest] at h
        cases h
        exact ih (i + 1) e hrest
      | ok rest =>
        simp only [hrest] at h
        exact absurd h (by simp)

/-- The string-pool branch fails only with the 4-byte `struct.error` message. -/
theorem parseStringPool_error_eq (data : List Nat) (chunkOffset : Nat) (e : String)
    (h : parseStringPool data chunkOffset = .error e) :
    e = "unpack requires a buffer of 4 bytes" := by
  unfold parseStringPool at h
  cases h32 : readU32 data (chunkOffset + 8) with
  | error e2 =>
    simp only [h32] at h
    cases h
    exact readU32_error_eq _ _ _ h32
  | ok stringCount =>
    simp only [h32] at h
    cases hoffs : readOffsets data chunkOffset 0 stringCount with
    | error e2 =>
      simp only [hoffs] at h
      cases h
      exact readOffsets_error_eq data chunkOffset stringCount 0 e hoffs
    | ok offsets =>
      simp only [hoffs] at h
      obtain ⟨l, hl⟩ := readStrings_isOk data (chunkOffset + 28 + stringCount * 4) offsets
      simp only [hl] at h
      exact absurd h (by simp)

/-- The fuel needed by the chunk loop is bounded by the buffer length: with
more fuel than `len(data) - offset` the step-indexed loop finishes and
agrees with the recursive one. -/
theorem scanLoopFuel_adequate :
    ∀ (fuel : Nat) (data : List Nat) (offset : Nat), data.length - offset < fuel →
      scanLoopFuel fuel data offset = some (scanLoop data offset) := by
  intro fuel
  induction fuel with
  | zero => intro data offset h; omega
  | succ f ih =>
    intro data offset h
    rw [scanLoop_eq]
    show (if offset < data.length - 8 then _ else _ : Option _) = _
    by_cases hc : offset < data.length - 8
    · rw [if_pos hc, if_pos hc]
      cases h1 : readU32 data offset with
      | error e => simp only [h1]
      | ok chunkType =>
        simp only [h1]
        cases h2 : readU32 data (offset + 4) with
        | error e => simp only [h2]
        | ok chunkSize =>
          simp only [h2]
          by_cases hm : chunkType = 0x001C0001
          · rw [if_pos hm, if_pos hm]
          · rw [if_neg hm, if_neg hm]
            apply ih
            by_cases hs : 0 < chunkSize
            · rw [if_pos hs]; omega
            · rw [if_neg hs]; omega
    · rw [if_neg hc, if_neg hc]

/-- A step-indexed chunk loop fails only with the 4-byte `struct.error`
message. -/
theorem scanLoopFuel_error_eq :
    ∀ (fuel : Nat) (data : List Nat) (offset : Nat) (e : String),
      scanLoopFuel fuel data offset = some (.error e) →
      e = "unpack requires a buffer of 4 bytes" := by
  intro fuel
  induction fuel with
  | zero => intro data offset e h; exact absurd h (by simp [scanLoopFuel])
  | succ f ih =>
    intro data offset e h
    unfold scanLoopFuel at h
    by_cases hc : offset < data.length - 8
    · rw [if_pos hc] at h
      cases h1 : readU32 data offset with
      | error e2 =>
        simp only [h1] at h
        cases h
        exact readU32_error_eq _ _ _ h1
      | ok chunkType =>
        simp only [h1] at h
        cases h2 : readU32 data (offset + 4) with
        | error e2 =>
          simp only [h2] at h
          cases h
          exact readU32_error_eq _ _ _ h2
        | ok chunkSize =>
          simp only [h2] at h
          by_cases hm : chunkType = 0x001C0001
          · rw [if_pos hm] at h
            injection h with h4
            exact parseStringPool_error_eq _ _ _ h4
          · rw [if_neg hm] at h
            exact ih _ _ _ h
    · rw [if_neg hc] at h
      exact absurd h (by simp)

/-- The chunk loop fails only with the 4-byte `struct.error` message. -/
theorem scanLoop_error_eq (data : List Nat) (offset : Nat) (e : String)
    (h : scanLoop data offset = .error e) : e = "unpack requires a buffer of 4 bytes" := by
  have ha := scanLoopFuel_adequate (data.length - offset + 1) data offset (by omega)
  rw [h] at ha
  exact scanLoopFuel_error_eq _ _ _ _ ha

/-- A raised `int()` conversion error is never the `TooSmall` message: the
`ValueError` text is at least 42 characters long. -/
theorem pyInt_error_ne (s e : String) (h : pyInt s = .error e) :
    e ≠ "File too small" := by
  unfold pyInt at h
  split at h
  · exact absurd h (by simp)
  · injection h with h2
    intro hcontra
    rw [← h2] at hcontra
    have hlen := congrArg String.length hcontra
    rw [String.length_append, String.length_append] at hlen
    have hl1 : ("invalid literal for int() with base 10: '" : String).length = 41 := rfl
    have hl2 : ("'" : String).length = 1 := rfl
    have hl3 : ("File too small" : String).length = 14 := rfl
    omega

/-- One step of the version-code loop raises only `int()` errors, never the
`TooSmall` message. -/
theorem vcStep_error_ne (vc : Option String) (s e : String)
    (h : vcStep vc s = .error e) : e ≠ "File too small" := by
  unfold vcStep at h
  split at h
  · split at h
    · exact absurd h (by simp)
    · cases hi : pyInt s with
      | error e2 =>
        simp only [hi] at h
        cases h
        exact pyInt_error_ne _ _ hi
      | ok ns =>
        simp only [hi] at h
        cases hv : pyInt (vc.getD "") with
        | error e2 =>
          simp only [hv] at h
          cases h
          exact pyInt_error_ne _ _ hv
        | ok nv =>
          simp only [hv] at h
          split at h
          · exact absurd h (by simp)
          · exact absurd h (by simp)
  · exact absurd h (by simp)

/-- The version-code loop raises only `int()` errors, never the `TooSmall`
message. -/
theorem versionCodeScan_error_ne :
    ∀ (l : List String) (vc : Option String) (e : String),
      versionCodeScan vc l = .error e → e ≠ "File too small" := by
  intro l
  induction l with
  | nil =>
    intro vc e h
    exact absurd h (by simp [versionCodeScan])
  | cons s rest ih =>
    intro vc e h
    unfold versionCodeScan at h
    cases hs : vcStep vc s with
    | error e2 =>
      simp only [hs] at h
      cases h
      exact vcStep_error_ne _ _ _ hs
    | ok vc2 =>
      simp only [hs] at h
      exact ih vc2 e h

/-- The parse body raises only the 4-byte `struct.error` message (truncated
reads) or an `int()` `ValueError` message — never the `TooSmall` text,
which is a normal return reserved for short buffers. -/
theorem parseBody_error_ne (data : List Nat) (e : String)
    (h : parseBody data = .error e) : e ≠ "File too small" := by
  unfold parseBody at h
  by_cases h8 : data.length < 8
  · rw [if_pos h8] at h
    exact absurd h (by simp)
  · rw [if_neg h8] at h
    cases h1 : readU32 data 0 with
    | error e2 =>
      simp only [h1] at h
      cases h
      rw [readU32_error_eq _ _ _ h1]
      decide
    | ok m =>
      simp only [h1] at h
      cases h2 : readU32 data 4 with
      | error e2 =>
        simp only [h2] at h
        cases h
        rw [readU32_error_eq _ _ _ h2]
        decide
      | ok fs =>
        simp only [h2] at h
        cases h3 : scanLoop data 8 with
        | error e2 =>
          simp only [h3] at h
          cases h
          rw [scanLoop_error_eq _ _ _ h3]
          decide
        | ok strings =>
          simp only [h3] at h
          cases h4 : versionCodeScan none strings with
          | error e2 =>
            simp only [h4] at h
            cases h
            exact versionCodeScan_error_ne _ _ _ h4
          | ok vc =>
            simp only [h4] at h
            exact absurd h (by simp)

/-- A normal return of the parse body is either a metadata record or the
`TooSmall` error dictionary (the latter only for short buffers). -/
theorem parseBody_ok_cases (data : List Nat) (d : ParseResult)
    (h : parseBody data = .ok d) :
    (∃ m, d = ParseResult.meta m) ∨
      (d = ParseResult.error "File too small" ∧ data.length < 8) := by
  unfold parseBody at h
  by_cases h8 : data.length < 8
  · rw [if_pos h8] at h
    cases h
    exact Or.inr ⟨rfl, h8⟩
  · rw [if_neg h8] at h
    cases h1 : readU32 data 0 with
    | error e2 => simp only [h1] at h; exact absurd h (by simp)
    | ok m =>
      simp only [h1] at h
      cases h2 : readU32 data 4 with
      | error e2 => simp only [h2] at h; exact absurd h (by simp)
      | ok fs =>
        simp only [h2] at h
        cases h3 : scanLoop data 8 with
        | error e2 => simp only [h3] at h; exact absurd h (by simp)
        | ok strings =>
          simp only [h3] at h
          cases h4 : versionCodeScan none strings with
          | error e2 => simp only [h4] at h; exact absurd h (by simp)
          | ok vc =>
            simp only [h4] at h
            cases h
            exact Or.inl ⟨_, rfl⟩

/-! ## Claims about the scanner and the outer contract -/

/-- C8: for every byte buffer shorter than 8 bytes the parse stops at the
early-exit guard and returns the `TooSmall` error dictionary, without any
chunk iteration or classification. -/
theorem claim_c8_too_small (data : List Nat) (h : data.length < 8) :
    parseBinaryXml data = ParseResult.error "File too small" := by
  unfold parseBinaryXml parseBody
  rw [if_pos h]

/-- Witness for C8 at the concrete three-byte buffer. -/
theorem claim_c8_witness :
    ([0, 0, 0] : List Nat).length < 8 ∧
      parseBinaryXml [0, 0, 0] = ParseResult.error "File too small" :=
  ⟨by decide, claim_c8_too_small [0, 0, 0] (by decide)⟩

/-- C10: `parse_binary_xml` is total at the caller's interface: on every
buffer it returns a dictionary (a metadata record or an error record), and
any exception raised by the body is caught and converted into an
`{'error': message}` record. -/
theorem claim_c10_total (data : List Nat) :
    ((∃ m, parseBinaryXml data = ParseResult.meta m) ∨
        ∃ e, parseBinaryXml data = ParseResult.error e) ∧
      ∀ e, parseBody data = Except.error e → parseBinaryXml data = ParseResult.error e := by
  constructor
  · cases h : parseBinaryXml data with
    | meta m => exact Or.inl ⟨m, rfl⟩
    | error e => exact Or.inr ⟨e, rfl⟩
  · intro e he
    unfold parseBinaryXml
    rw [he]

/-- C9: the chunk scan terminates on every buffer: with one unit of fuel
per byte of the buffer (plus one) the step-indexed loop finishes, and the
parse (scan followed by classification) yields a result; this covers
zero-size chunks (the advance is then one byte) and buffers without any
string-pool marker. -/
theorem claim_c9_termination (data : List Nat) :
    scanLoopFuel (data.length + 1) data 8 = some (scanLoop data 8) ∧
      ∃ r, parseBinaryXml data = r :=
  ⟨scanLoopFuel_adequate (data.length + 1) data 8 (by omega), ⟨_, rfl⟩⟩

/-- The value of the chunk loop read off the step-indexed loop: well-founded
recursion does not reduce definitionally, the fuel version does. -/
theorem scanLoop_of_fuel (data : List Nat) (offset fuel : Nat)
    (r : Except String (List String)) (hf : data.length - offset < fuel)
    (h : scanLoopFuel fuel data offset = some r) : scanLoop data offset = r := by
  have ha := scanLoopFuel_adequate fuel data offset hf
  rw [h] at ha
  injection ha with h2
  exact h2.symm

/-- The parse result when the scan raises on a buffer of at least 8 bytes. -/
theorem parseBinaryXml_of_scan_error (data : List Nat) (h8 : ¬ data.length < 8)
    (e : String) (hs : scanLoop data 8 = .error e) :
    parseBinaryXml data = ParseResult.error e := by
  have h1 : readU32 data 0 = .ok (data.getD 0 0 + 256 * data.getD 1 0 + 65536 * data.getD 2 0 +
      16777216 * data.getD 3 0) := by
    unfold readU32
    rw [if_pos (by omega)]
  have h2 : readU32 data 4 = .ok (data.getD 4 0 + 256 * data.getD 5 0 + 65536 * data.getD 6 0 +
      16777216 * data.getD 7 0) := by
    unfold readU32
    rw [if_pos (by omega)]
  unfold parseBinaryXml parseBody
  rw [if_neg h8]
  simp only [h1, h2, hs]

/-- C1 fails as stated: this 17-byte buffer (at least 8 bytes long) carries
the string-pool marker at offset 8 but ends before the pool's
`string_count` field, so the internal `struct.unpack` raises and the caller
receives an `{'error': ...}` result that is not the `TooSmall` condition
and not a metadata record. -/
theorem claim_c1_counterexample :
    parseBinaryXml [0, 0, 0, 0, 0, 0, 0, 0, 1, 0, 28, 0, 0, 0, 0, 0, 0] =
        ParseResult.error "unpack requires a buffer of 4 bytes" ∧
      8 ≤ ([0, 0, 0, 0, 0, 0, 0, 0, 1, 0, 28, 0, 0, 0, 0, 0, 0] : List Nat).length ∧
      ParseResult.error "unpack requires a buffer of 4 bytes" ≠
        ParseResult.error "File too small" ∧
      ∀ m, parseBinaryXml [0, 0, 0, 0, 0, 0, 0, 0, 1, 0, 28, 0, 0, 0, 0, 0, 0] ≠
        ParseResult.meta m := by
  have hs : scanLoop [0, 0, 0, 0, 0, 0, 0, 0, 1, 0, 28, 0, 0, 0, 0, 0, 0] 8 =
      .error "unpack requires a buffer of 4 bytes" :=
    scanLoop_of_fuel _ 8 18 _ (by decide) rfl
  have hp := parseBinaryXml_of_scan_error _ (by decide) _ hs
  refine ⟨hp, by decide, by decide, ?_⟩
  intro m hm
  rw [hp] at hm
  exact ParseResult.noConfusion hm

/-- C1 (amended): for a buffer of at least 8 bytes no exception propagates
and the `TooSmall` error never occurs, but not every anomaly is absorbed:
the parse returns either a metadata record or an `{'error': message}`
record whose message differs from `File too small` (a truncated string-pool
header surfaces the caught `struct.error`; a non-decimal digit version-code
candidate surfaces the caught `ValueError`). -/
theorem claim_c1_soft_degradation (data : List Nat) (h : 8 ≤ data.length) :
    (∃ m, parseBinaryXml data = ParseResult.meta m) ∨
      ∃ e, parseBinaryXml data = ParseResult.error e ∧ e ≠ "File too small" := by
  cases hb : parseBody data with
  | ok d =>
    have hd : parseBinaryXml data = d := by unfold parseBinaryXml; rw [hb]
    rcases parseBody_ok_cases data d hb with ⟨m, hm⟩ | ⟨_, hlen⟩
    · exact Or.inl ⟨m, by rw [hd, hm]⟩
    · omega
  | error e =>
    have he := parseBody_error_ne data e hb
    refine Or.inr ⟨e, ?_, he⟩
    unfold parseBinaryXml
    rw [hb]

/-- Witness for the amended C1 at an 8-byte buffer, which parses to an
all-absent metadata record. -/
theorem claim_c1_witness :
    8 ≤ ([0, 0, 0, 0, 0, 0, 0, 0] : List Nat).length ∧
      ((∃ m, parseBinaryXml [0, 0, 0, 0, 0, 0, 0, 0] = ParseResult.meta m) ∨
        ∃ e, parseBinaryXml [0, 0, 0, 0, 0, 0, 0, 0] = ParseResult.error e ∧
          e ≠ "File too small") :=
  ⟨by decide, claim_c1_soft_degradation [0, 0, 0, 0, 0, 0, 0, 0] (by decide)⟩

/-! ## Classifier lemmas -/

/-- The permission collection as the claim words it: walk the pool in order
and keep each permission string that has not been seen before. -/
def permFirstSeen (seen : List String) : List String → List String
  | [] => []
  | s :: rest =>
    if isPermissionString s && !seen.contains s then s :: permFirstSeen (s :: seen) rest
    else permFirstSeen seen rest

/-- `permFirstSeen` only looks at the membership of its `seen` list. -/
theorem permFirstSeen_congr :
    ∀ (l s1 s2 : List String), (∀ x, s1.contains x = s2.contains x) →
      permFirstSeen s1 l = permFirstSeen s2 l := by
  intro l
  induction l with
  | nil => intro s1 s2 hc; rfl
  | cons s rest ih =>
    intro s1 s2 hc
    unfold permFirstSeen
    rw [hc s]
    by_cases hp : isPermissionString s && !s2.contains s
    · rw [if_pos hp, if_pos hp, ih (s :: s1) (s :: s2) (by
        intro x
        simp only [List.contains_cons, hc x])]
    · rw [if_neg hp, if_neg hp, ih s1 s2 hc]

/-- The source's fold of lines 85-96 equals the first-seen collection. -/
theorem permStep_foldl :
    ∀ (l acc : List String), l.foldl permStep acc = acc ++ permFirstSeen acc l := by
  intro l
  induction l with
  | nil => intro acc; simp [permFirstSeen]
  | cons s rest ih =>
    intro acc
    by_cases hp : isPermissionString s && !acc.contains s
    · have hstep : permStep acc s = acc ++ [s] := by unfold permStep; rw [if_pos hp]
      have hrhs : permFirstSeen acc (s :: rest) = s :: permFirstSeen (s :: acc) rest := by
        simp only [permFirstSeen]
        rw [if_pos hp]
      have hcg := permFirstSeen_congr rest (acc ++ [s]) (s :: acc) (by
        intro x
        simp [List.contains_eq_any_beq, Bool.or_comm])
      rw [List.foldl_cons, hstep, ih (acc ++ [s]), hrhs, hcg]
      simp
    · have hstep : permStep acc s = acc := by unfold permStep; rw [if_neg hp]
      have hrhs : permFirstSeen acc (s :: rest) = permFirstSeen acc rest := by
        simp only [permFirstSeen]
        rw [if_neg hp]
      rw [List.foldl_cons, hstep, ih acc, hrhs]

/-- Membership in the first-seen collection. -/
theorem permFirstSeen_mem :
    ∀ (l seen : List String) (x : String), x ∈ permFirstSeen seen l ↔
      x ∈ l ∧ isPermissionString x = true ∧ seen.contains x = false := by
  intro l
  induction l with
  | nil => intro seen x; simp [permFirstSeen]
  | cons s rest ih =>
    intro seen x
    unfold permFirstSeen
    by_cases hp : isPermissionString s && !seen.contains s
    · rw [if_pos hp]
      have hp2 := hp
      simp only [Bool.and_eq_true] at hp2
      obtain ⟨hps, hns⟩ := hp2
      constructor
      · intro hx
        rcases List.mem_cons.mp hx with hx | hx
        · subst hx
          exact ⟨List.mem_cons_self _ _, hps, by simpa using hns⟩
        · obtain ⟨h1, h2, h3⟩ := (ih (s :: seen) x).mp hx
          simp only [List.contains_cons, Bool.or_eq_false_iff] at h3
          exact ⟨List.mem_cons_of_mem _ h1, h2, h3.2⟩
      · rintro ⟨h1, h2, h3⟩
        rcases List.mem_cons.mp h1 with hx | hx
        · subst hx
          exact List.mem_cons_self _ _
        · by_cases hxs : x = s
          · subst hxs
            exact List.mem_cons_self _ _
          · refine List.mem_cons_of_mem _ ((ih (s :: seen) x).mpr ⟨hx, h2, ?_⟩)
            simp only [List.contains_cons, Bool.or_eq_false_iff]
            exact ⟨by simp [hxs], h3⟩
    · rw [if_neg hp]
      rw [ih seen x]
      constructor
      · rintro ⟨h1, h2, h3⟩
        exact ⟨List.mem_cons_of_mem _ h1, h2, h3⟩
      · rintro ⟨h1, h2, h3⟩
        rcases List.mem_cons.mp h1 with hx | hx
        · subst hx
          exact absurd (by rw [h2, h3]; rfl) hp
        · exact ⟨hx, h2, h3⟩

/-- The first-seen collection never repeats a string. -/
theorem permFirstSeen_nodup :
    ∀ (l seen : List String), (permFirstSeen seen l).Nodup := by
  intro l
  induction l with
  | nil => intro seen; simp [permFirstSeen]
  | cons s rest ih =>
    intro seen
    unfold permFirstSeen
    by_cases hp : isPermissionString s && !seen.contains s
    · rw [if_pos hp]
      refine List.nodup_cons.mpr ⟨?_, ih (s :: seen)⟩
      intro hmem
      have h3 := ((permFirstSeen_mem rest (s :: seen) s).mp hmem).2.2
      simp [List.contains_cons] at h3
    · rw [if_neg hp]
      exact ih seen

/-- C2: the permission list contains exactly the pool's permission strings
(those starting with `android.permission.`, or containing `.permission.`
without a component suffix), in first-seen order, with repeats suppressed. -/
theorem claim_c2_permissions (pool : List String) :
    (classify pool).permissions = permFirstSeen [] pool ∧
      (classify pool).permissions.Nodup ∧
      ∀ s, s ∈ (classify pool).permissions ↔ s ∈ pool ∧ isPermissionString s = true := by
  have heq : (classify pool).permissions = permFirstSeen [] pool := by
    show collectPermissions pool = permFirstSeen [] pool
    unfold collectPermissions
    rw [permStep_foldl pool []]
    rfl
  refine ⟨heq, by rw [heq]; exact permFirstSeen_nodup pool [], ?_⟩
  intro s
  rw [heq, permFirstSeen_mem pool [] s]
  simp

/-- A string stored by the package test is non-empty (length over 5). -/
theorem isPackageString_not_falsy (s : String) (h : isPackageString s = true) :
    pyFalsy (some s) = false := by
  unfold isPackageString at h
  simp only [Bool.and_eq_true, decide_eq_true_eq] at h
  have h5 : 5 < s.length := h.1.1.1.1.1.1.2
  simp only [pyFalsy, beq_eq_false_iff_ne, ne_eq]
  intro he
  rw [he] at h5
  simp [String.length] at h5

/-- A string stored by the version-name test is non-empty (contains a dot). -/
theorem isVersionNameString_not_falsy (s : String) (h : isVersionNameString s = true) :
    pyFalsy (some s) = false := by
  unfold isVersionNameString at h
  simp only [Bool.and_eq_true] at h
  have hdot : s.data.contains '.' = true := h.1.1.2
  simp only [pyFalsy, beq_eq_false_iff_ne, ne_eq]
  intro he
  rw [he] at hdot
  simp [List.contains_eq_any_beq] at hdot

/-- Once the first slot of the package/version loop holds a truthy value it
never changes. -/
theorem pkgVersionScan_keep_fst :
    ∀ (l : List String) (st : Option String × Option String), pyFalsy st.1 = false →
      (l.foldl pkgVersionStep st).1 = st.1 := by
  intro l
  induction l with
  | nil => intro st h; rfl
  | cons s rest ih =>
    intro st h
    rw [List.foldl_cons]
    have hstep : (pkgVersionStep st s).1 = st.1 := by
      unfold pkgVersionStep
      simp only [h, Bool.false_and, if_neg (by simp : ¬ (false = true))]
    rw [ih (pkgVersionStep st s) (by rw [hstep]; exact h), hstep]

/-- Once the second slot of the package/version loop holds a truthy value it
never changes. -/
theorem pkgVersionScan_keep_snd :
    ∀ (l : List String) (st : Option String × Option String), pyFalsy st.2 = false →
      (l.foldl pkgVersionStep st).2 = st.2 := by
  intro l
  induction l with
  | nil => intro st h; rfl
  | cons s rest ih =>
    intro st h
    rw [List.foldl_cons]
    have hstep : (pkgVersionStep st s).2 = st.2 := by
      unfold pkgVersionStep
      simp only [h, Bool.false_and, if_neg (by simp : ¬ (false = true))]
    rw [ih (pkgVersionStep st s) (by rw [hstep]; exact h), hstep]

/-- Started from an empty package slot, the loop of lines 159-173 stores the
first string passing the package test. -/
theorem pkgVersionScan_fst_find :
    ∀ (l : List String) (v : Option String),
      (l.foldl pkgVersionStep (none, v)).1 = l.find? isPackageString := by
  intro l
  induction l with
  | nil => intro v; rfl
  | cons s rest ih =>
    intro v
    rw [List.foldl_cons]
    by_cases hp : isPackageString s
    · have hstep : pkgVersionStep (none, v) s =
          (some s, if pyFalsy v && isVersionNameString s then some s else v) := by
        unfold pkgVersionStep
        simp [hp, pyFalsy]
      rw [hstep, List.find?_cons_of_pos _ hp]
      exact pkgVersionScan_keep_fst rest _ (isPackageString_not_falsy s hp)
    · have hstep : pkgVersionStep (none, v) s =
          (none, if pyFalsy v && isVersionNameString s then some s else v) := by
        unfold pkgVersionStep
        simp [hp, pyFalsy]
      rw [hstep, List.find?_cons_of_neg _ hp]
      exact ih _
  
/-- Started from an empty version-name slot, the loop of lines 159-173
stores the first string passing the version-name test. -/
theorem pkgVersionScan_snd_find :
    ∀ (l : List String) (p : Option String),
      (l.foldl pkgVersionStep (p, none)).2 = l.find? isVersionNameString := by
  intro l
  induction l with
  | nil => intro p; rfl
  | cons s rest ih =>
    intro p
    rw [List.foldl_cons]
    by_cases hp : isVersionNameString s
    · have hstep : pkgVersionStep (p, none) s =
          (if pyFalsy p && isPackageString s then some s else p, some s) := by
        unfold pkgVersionStep
        simp [hp, pyFalsy]
      rw [hstep, List.find?_cons_of_pos _ hp]
      exact pkgVersionScan_keep_snd rest _ (isVersionNameString_not_falsy s hp)
    · have hstep : pkgVersionStep (p, none) s =
          (if pyFalsy p && isPackageString s then some s else p, none) := by
        unfold pkgVersionStep
        simp [hp, pyFalsy]
      rw [hstep, List.find?_cons_of_neg _ hp]
      exact ih _

/-- C3: the extracted package name is the first pool string satisfying the
package test (dotted, length in (5,200), at least two dots, alphabetic
content, only alphanumeric or `.`/`_`, not digit-led, not an
`android.permission.` string); selection is first-match, as the concrete
pool with `com.example.myapp` before `com.example.myapp.MainActivity`
shows. -/
theorem claim_c3_package (pool : List String) :
    (classify pool).package = pool.find? isPackageString ∧
      (classify ["com.example.myapp", "com.example.myapp.MainActivity"]).package =
        some "com.example.myapp" := by
  constructor
  · show packageOf pool = pool.find? isPackageString
    unfold packageOf
    exact pkgVersionScan_fst_find pool none
  · decide

/-- C4 fails as stated: the claim's sample form `2.0-beta1` is rejected by
the version-name heuristic — stripping `.`/`-`/`_` gives `20beta1`,
truncation gives `20bet`, and removing `b`, `a`, `rc` leaves `20et`, which
is not all digits — so a pool holding only that string yields no version
name. -/
theorem claim_c4_counterexample :
    isVersionNameString "2.0-beta1" = false ∧
      (classify ["2.0-beta1"]).versionName = none := by
  constructor
  · decide
  · decide

/-- C4 (amended): the extracted version name is the first pool string of
length below 50, containing a dot, digit-led, whose transform (drop every
`.`, `-`, `_`, truncate to five characters, strip `b`, `a`, `rc`) is all
digits; the heuristic admits `1.2.3` and `1.0rc2` but rejects `2.0-beta1`
(its truncated transform retains `et`), and the first match wins. -/
theorem claim_c4_version_name (pool : List String) :
    (classify pool).versionName = pool.find? isVersionNameString ∧
      isVersionNameString "1.2.3" = true ∧
      isVersionNameString "1.0rc2" = true ∧
      isVersionNameString "2.0-beta1" = false ∧
      (classify ["1.2.3", "9.8.7"]).versionName = some "1.2.3" := by
  refine ⟨?_, by decide, by decide, by decide, by decide⟩
  show versionNameOf pool = pool.find? isVersionNameString
  unfold versionNameOf
  exact pkgVersionScan_snd_find pool none

/-- A proximity-pass candidate is non-empty (length at least 2). -/
theorem isLabelCandidate1_not_falsy (s : String) (h : isLabelCandidate1 s = true) :
    pyFalsy (some s) = false := by
  unfold isLabelCandidate1 at h
  simp only [Bool.and_eq_true, decide_eq_true_eq] at h
  have h2 : 2 ≤ s.length := h.1.1.1.1.1.1.1.1.1
  simp only [pyFalsy, beq_eq_false_iff_ne, ne_eq]
  intro he
  rw [he] at h2
  simp [String.length] at h2

/-- C6: when the pool holds a string equal to `application` at first index
`i`, and the 20-string window after it holds a proximity-pass candidate
(length 2-50, no slash, not `android`/`com.`/`@`-led, not `.xml`-ended, no
digit, not in the exclusion vocabulary, upper-case-led), the application
label is the first such candidate. -/
theorem claim_c6_proximity_label (pool : List String) (i : Nat) (s : String)
    (hi : pool.findIdx? (· == "application") = some i)
    (hs : ((pool.drop (i + 1)).take 20).find? isLabelCandidate1 = some s) :
    (classify pool).appLabel = some s := by
  have hl1 : labelPass1 pool = some s := by
    unfold labelPass1
    rw [hi]
    exact hs
  have hcand : isLabelCandidate1 s = true := List.find?_some hs
  have hf : pyFalsy (some s) = false := isLabelCandidate1_not_falsy s hcand
  have hchain : labelChain pool = some s := by
    simp [labelChain, hl1, hf]
  show appLabelOf pool = some s
  simp [appLabelOf, hchain, hf]

/-- Witness for C6: `MyCoolApp` one slot after `application`. -/
theorem claim_c6_witness :
    ["application", "MyCoolApp"].findIdx? (· == "application") = some 0 ∧
      (((["application", "MyCoolApp"].drop (0 + 1)).take 20).find? isLabelCandidate1 =
        some "MyCoolApp") ∧
      (classify ["application", "MyCoolApp"]).appLabel = some "MyCoolApp" :=
  ⟨by decide, by decide,
    claim_c6_proximity_label ["application", "MyCoolApp"] 0 "MyCoolApp" (by decide) (by decide)⟩

/-- `pySplitChar` never returns an empty list of fields. -/
theorem pySplitChar_ne_nil (sep : Char) : ∀ l, pySplitChar sep l ≠ [] := by
  intro l
  induction l with
  | nil => simp [pySplitChar]
  | cons c rest ih =>
    unfold pySplitChar
    by_cases hc : c = sep
    · rw [if_pos hc]
      simp
    · rw [if_neg hc]
      cases hx : pySplitChar sep rest with
      | nil => simp
      | cons p ps => simp

/-- `pySplit` always returns at least one field (Python `split` semantics). -/
theorem pySplit_length_pos (s : String) (sep : Char) : 0 < (pySplit s sep).length := by
  unfold pySplit
  rw [List.length_map]
  exact List.length_pos.mpr (pySplitChar_ne_nil sep s.data)

/-- C7: when all three label passes fail and a (non-empty) package name was
found, the application label is synthesized as the last dot-separated
segment of the package name, capitalized. -/
theorem claim_c7_label_fallback (pool : List String) (p : String)
    (h1 : labelPass1 pool = none) (h2 : labelPass2 pool = none) (h3 : labelPass3 pool = none)
    (hp : (classify pool).package = some p) (hp0 : p ≠ "") :
    (classify pool).appLabel = some (pyCapitalize ((pySplit p '.').getLastD "")) := by
  have hchain : labelChain pool = none := by
    simp [labelChain, h1, h2, h3, pyFalsy]
  have hpkg : packageOf pool = some p := hp
  have hfp : pyFalsy (some p) = false := by
    simp [pyFalsy]
    exact hp0
  show appLabelOf pool = some (pyCapitalize ((pySplit p '.').getLastD ""))
  simp [appLabelOf, hchain, hpkg, hfp, pySplit_length_pos p '.',
    show pyFalsy none = true from rfl]

/-- Witness for C7: the pool holding only `com.example.demo` has no label
candidate anywhere, and the label is synthesized as `Demo`. -/
theorem claim_c7_witness :
    labelPass1 ["com.example.demo"] = none ∧
      labelPass2 ["com.example.demo"] = none ∧
      labelPass3 ["com.example.demo"] = none ∧
      (classify ["com.example.demo"]).package = some "com.example.demo" ∧
      (classify ["com.example.demo"]).appLabel = some "Demo" := by
  refine ⟨by decide, by decide, by decide, by decide, ?_⟩
  have h := claim_c7_label_fallback ["com.example.demo"] "com.example.demo"
    (by decide) (by decide) (by decide) (by decide) (by decide)
  rw [h]
  decide
